import Mathlib

/-!
Shallow embedding of src/bibliography.py.

Python strings are modelled as lists of characters (`PyStr`).  Code that can
raise a Python exception (IndexError from indexing an empty string, KeyError
from a dict lookup, re.error from a malformed replacement template) is
modelled in `Option` or `Except PyErr`.  All recursive functions are
structurally recursive (using an explicit fuel argument bounded by the input
length where the source recursion is not structural) so that every definition
evaluates by kernel reduction on concrete inputs.
-/

namespace Bibliography

abbrev PyStr := List Char

/-- Test whether the pattern is an initial segment of the string. -/
def leads : PyStr → PyStr → Bool
  | [], _ => true
  | _ :: _, [] => false
  | p :: ps, c :: cs => p == c && leads ps cs

/-- Python str.find: index of the first occurrence of the pattern, none when
the pattern does not occur (Python returns -1 there). -/
def pyFind : PyStr → PyStr → Option Nat
  | s, pat =>
    match s with
    | [] => if leads pat [] then some 0 else none
    | c :: rest => if leads pat (c :: rest) then some 0 else (pyFind rest pat).map (· + 1)

/-- Occurrence test: does the pattern occur anywhere in the string. -/
def occursB (pat : PyStr) : PyStr → Bool
  | [] => leads pat []
  | c :: rest => leads pat (c :: rest) || occursB pat rest

/-- The whitespace characters of Python str.strip. -/
def isPySpace (c : Char) : Bool :=
  c == ' ' || c == '\t' || c == '\n' || c == '\r' || c == '\x0b' || c == '\x0c'

/-- Python str.strip: remove leading and trailing whitespace. -/
def pyStrip (s : PyStr) : PyStr :=
  ((s.dropWhile isPySpace).reverse.dropWhile isPySpace).reverse

/-- Python str.lower, on the ASCII subset used by the program. -/
def pyLower (s : PyStr) : PyStr := s.map Char.toLower

/-- Python percent-formatting for a format string holding exactly one
percent-s marker, as all templates in VARS do. -/
def pyFormatS (fmt arg : PyStr) : PyStr :=
  match pyFind fmt ('%' :: 's' :: []) with
  | some i => fmt.take i ++ arg ++ fmt.drop (i + 2)
  | none => fmt

/-- The literal marker searched for by canonicalize_author (line 30). -/
def etAllMarker : PyStr := "et all".data

/-- Line 34: strip one trailing period when present. -/
def stripTrailingDot (v : PyStr) : PyStr :=
  if v.getLast? = some '.' then v.dropLast else v

/-- Lines 38-42: excise the first case-insensitive occurrence of the marker,
returning the shortened string and the marker to re-append (empty when the
marker was not found). -/
def excise (v : PyStr) : PyStr × PyStr :=
  match pyFind (pyLower v) etAllMarker with
  | some i => (v.take i ++ v.drop (i + 6), etAllMarker)
  | none => (v, [])

/-- Lines 46-52: swap "First Last" to "Last, First" iff no comma is present
and the first space is at a positive index. -/
def reorderName (v : PyStr) : PyStr :=
  match pyFind v (',' :: []) with
  | some _ => v
  | none =>
    match pyFind v (' ' :: []) with
    | some i =>
      if 0 < i then pyStrip (v.drop i) ++ ',' :: ' ' :: pyStrip (v.take i) else v
    | none => v

/-- Lines 54-56: re-append the excised marker after stripping whitespace. -/
def assembleEtAll (p : PyStr × PyStr) : PyStr :=
  if p.2 ≠ [] then pyStrip (reorderName p.1) ++ ' ' :: p.2 else reorderName p.1

/-- Lines 58-63: final trailing-period strip.  Python evaluates value[-1],
which raises IndexError when the string is empty at this point; that failure
is modelled by none. -/
def finishAuthor (v : PyStr) : Option PyStr :=
  match v.getLast? with
  | none => none
  | some c => some (if c = '.' then v.dropLast else v)

/-- canonicalize_author (lines 5-63 of src/bibliography.py). -/
def canonicalize_author (value : PyStr) : Option PyStr :=
  if value = [] then some []
  else finishAuthor (assembleEtAll (excise (stripTrailingDot value)))

/-- Line 78-79: drop a single leading double-quote when present. -/
def stripLeadQuote (v : PyStr) : PyStr :=
  if v.head? = some '"' then v.drop 1 else v

/-- canonicalize_title (lines 65-83).  The trailing-quote check evaluates
value[-1], which raises IndexError when the leading-quote removal emptied the
string; that failure is modelled by none. -/
def canonicalize_title (value : PyStr) : Option PyStr :=
  if value = [] then some []
  else
    match (stripLeadQuote value).getLast? with
    | none => none
    | some c =>
      some (if c = '"' then (stripLeadQuote value).dropLast else stripLeadQuote value)

/-- Template for a bibliography entry (line 87). -/
def TEMPLATE : PyStr := "<author> <title> <pubdate> <ref>".data

/-- Variable record (line 99). -/
structure Variable where
  caption : PyStr
  template : PyStr
  filter : Option (PyStr → Option PyStr)

def authorVar : Variable :=
  ⟨"Author (Last, First)".data, "%s.".data, some canonicalize_author⟩

def titleVar : Variable :=
  ⟨"Title".data, "\"%s\"".data, some canonicalize_title⟩

def pubdateVar : Variable :=
  ⟨"Publication Date (DD MMM YYYY)".data, "%s.".data, none⟩

def refVar : Variable :=
  ⟨"Reference".data, "<<%s>>".data, none⟩

/-- The VARS dict (lines 103-124), as a lookup returning none for a missing
key (the Python indexing raises KeyError there). -/
def VARS (name : PyStr) : Option Variable :=
  if name = "author".data then some authorVar
  else if name = "title".data then some titleVar
  else if name = "pubdate".data then some pubdateVar
  else if name = "ref".data then some refVar
  else none

/-- Python exceptions that the modelled code can raise. -/
inductive PyErr where
  | indexError
  | keyError (name : PyStr)
  | badEscape
  | invalidGroupRef
  | badGroupName
  | octalOutOfRange
deriving DecidableEq, Repr

def isAsciiLetterCh (c : Char) : Bool :=
  ('a' ≤ c && c ≤ 'z') || ('A' ≤ c && c ≤ 'Z')

def isDigitCh (c : Char) : Bool := '0' ≤ c && c ≤ '9'

def isOctCh (c : Char) : Bool := '0' ≤ c && c ≤ '7'

def digitVal (d : Char) : Nat := d.toNat - '0'.toNat

/-- The single-character escapes accepted by the Python regex replacement
template parser (sre_parse ESCAPES). -/
def reEscapes (c : Char) : Option Char :=
  if c = '\\' then some '\\'
  else if c = 'n' then some '\n'
  else if c = 't' then some '\t'
  else if c = 'r' then some '\r'
  else if c = 'v' then some '\x0b'
  else if c = 'f' then some '\x0c'
  else if c = 'a' then some '\x07'
  else if c = 'b' then some '\x08'
  else none

/-- Expansion of a re.sub replacement template against a pattern with zero
groups, where every match equals the literal pattern text `mat` (the pattern
built by the program is always a literal).  Mirrors sre_parse.parse_template:
backslash escapes are interpreted, group references are invalid (the pattern
has no groups) except group 0 which denotes the whole match, unknown letter
escapes and a trailing backslash are errors.  Fuel is the length of the
template, and every step consumes at least one character. -/
def expandGo (mat : PyStr) : Nat → PyStr → Except PyErr PyStr
  | _, [] => Except.ok []
  | 0, s => Except.ok s
  | fuel + 1, c :: rest =>
    if c = '\\' then
      match rest with
      | [] => Except.error PyErr.badEscape
      | d :: rest2 =>
        if d = 'g' then
          match rest2 with
          | '<' :: rest3 =>
            let name := rest3.takeWhile (fun x => !(x == '>'))
            if name.length = rest3.length then Except.error PyErr.badGroupName
            else if name ≠ [] ∧ name.all isDigitCh then
              if name.foldl (fun a x => a * 10 + digitVal x) 0 = 0 then
                (fun t => mat ++ t) <$> expandGo mat fuel (rest3.drop (name.length + 1))
              else Except.error PyErr.invalidGroupRef
            else Except.error PyErr.badGroupName
          | _ => Except.error PyErr.badGroupName
        else if d = '0' then
          let ds := (rest2.takeWhile isOctCh).take 2
          let v := ds.foldl (fun a x => a * 8 + digitVal x) 0
          (fun t => Char.ofNat v :: t) <$> expandGo mat fuel (rest2.drop ds.length)
        else if isDigitCh d then
          match rest2 with
          | e :: f :: rest3 =>
            if isOctCh d && isOctCh e && isOctCh f then
              let v := digitVal d * 64 + digitVal e * 8 + digitVal f
              if v > 255 then Except.error PyErr.octalOutOfRange
              else (fun t => Char.ofNat v :: t) <$> expandGo mat fuel rest3
            else Except.error PyErr.invalidGroupRef
          | _ => Except.error PyErr.invalidGroupRef
        else
          match reEscapes d with
          | some e => (fun t => e :: t) <$> expandGo mat fuel rest2
          | none =>
            if isAsciiLetterCh d then Except.error PyErr.badEscape
            else (fun t => '\\' :: d :: t) <$> expandGo mat fuel rest2
    else
      (fun t => c :: t) <$> expandGo mat fuel rest

def expandTemplate (mat s : PyStr) : Except PyErr PyStr := expandGo mat s.length s

/-- Replacement of every non-overlapping occurrence of the (never empty)
literal pattern, scanning left to right, as re.sub does for a literal
pattern.  Fuel is the length of the scanned string. -/
def replaceAllGo (pat repl : PyStr) : Nat → PyStr → PyStr
  | _, [] => []
  | 0, s => s
  | fuel + 1, c :: rest =>
    if !pat.isEmpty && leads pat (c :: rest) then
      repl ++ replaceAllGo pat repl fuel (rest.drop (pat.length - 1))
    else c :: replaceAllGo pat repl fuel rest

def replaceAllL (pat repl s : PyStr) : PyStr := replaceAllGo pat repl s.length s

/-- One variable token when the string starts with one, with its length
(the regex alternation of line 162; the four alternatives are mutually
exclusive at any position). -/
def varAt (s : PyStr) : Option (PyStr × Nat) :=
  if leads "<author>".data s then some ("author".data, 8)
  else if leads "<title>".data s then some ("title".data, 7)
  else if leads "<pubdate>".data s then some ("pubdate".data, 9)
  else if leads "<ref>".data s then some ("ref".data, 5)
  else none

/-- re.findall of the variable tokens, left to right (line 162). -/
def findVarsGo : Nat → PyStr → List PyStr
  | _, [] => []
  | 0, _ => []
  | fuel + 1, c :: rest =>
    match varAt (c :: rest) with
    | some p => p.1 :: findVarsGo fuel (rest.drop (p.2 - 1))
    | none => findVarsGo fuel rest

def findVars (s : PyStr) : List PyStr := findVarsGo s.length s

/-- Lines 154-158: apply the registered filter to a non-empty value (the
filter itself can raise), then wrap a non-empty result with the percent
template of the variable. -/
def wrappedText (spec : Variable) (text : PyStr) : Except PyErr PyStr := do
  let t1 ←
    if text ≠ [] then
      match spec.filter with
      | some f =>
        match f text with
        | some t => Except.ok t
        | none => Except.error PyErr.indexError
      | none => Except.ok text
    else Except.ok text
  Except.ok (if t1 ≠ [] then pyFormatS spec.template t1 else t1)

/-- The pure substitution step of get_next_input_or_insert (lines 134-169):
given the entry being built, an optional variable name and an optional value,
produce the new entry and the next variable to prompt for (none when the
entry is final).  The UI glue (input panel, buffer insertion) is out of
scope; a missing name in VARS raises KeyError, a filter failure raises
IndexError, and re.sub raises re.error on a bad replacement template. -/
def get_next_input_or_insert (entry : PyStr) (var : Option PyStr)
    (text : Option PyStr) : Except PyErr (PyStr × Option PyStr) :=
  let text0 := text.getD []
  match var with
  | none => Except.ok (entry, (findVars entry).head?)
  | some v =>
    match VARS v with
    | none => Except.error (PyErr.keyError v)
    | some spec =>
      match wrappedText spec text0 with
      | Except.error e => Except.error e
      | Except.ok t =>
        match expandTemplate ('<' :: (v ++ '>' :: [])) t with
        | Except.error e => Except.error e
        | Except.ok repl =>
          let entry2 := pyStrip (replaceAllL ('<' :: (v ++ '>' :: [])) repl entry)
          Except.ok (entry2, (findVars entry2).head?)

/-! ### Helper lemmas about the string primitives -/

theorem leads_iff {pat s : PyStr} : leads pat s = true ↔ ∃ t, s = pat ++ t := by
  induction pat generalizing s with
  | nil => simp [leads]
  | cons p ps ih =>
    cases s with
    | nil => simp [leads]
    | cons c cs =>
      simp only [leads, Bool.and_eq_true, beq_iff_eq, List.cons_append, List.cons.injEq, ih]
      constructor
      · rintro ⟨rfl, t, rfl⟩; exact ⟨t, rfl, rfl⟩
      · rintro ⟨t, rfl, rfl⟩; exact ⟨rfl, t, rfl⟩

theorem occursB_iff {pat s : PyStr} : occursB pat s = true ↔ ∃ a b, s = a ++ (pat ++ b) := by
  induction s with
  | nil =>
    simp only [occursB]
    rw [leads_iff]
    constructor
    · rintro ⟨t, ht⟩; exact ⟨[], t, by simpa using ht⟩
    · rintro ⟨a, b, h⟩
      obtain ⟨ha, hpb⟩ := List.append_eq_nil.mp h.symm
      obtain ⟨hp, hb⟩ := List.append_eq_nil.mp hpb
      exact ⟨[], by simp [hp, hb]⟩
  | cons c rest ih =>
    simp only [occursB, Bool.or_eq_true]
    constructor
    · rintro (h | h)
      · obtain ⟨t, ht⟩ := leads_iff.mp h
        exact ⟨[], t, by simpa using ht⟩
      · obtain ⟨a, b, hab⟩ := ih.mp h
        exact ⟨c :: a, b, by simp [hab]⟩
    · rintro ⟨a, b, hab⟩
      cases a with
      | nil =>
        left
        exact leads_iff.mpr ⟨b, by simpa using hab⟩
      | cons x a2 =>
        right
        rw [List.cons_append] at hab
        injection hab with h1 h2
        exact ih.mpr ⟨a2, b, h2⟩

theorem occursB_append_left {pat a : PyStr} (b : PyStr) (h : occursB pat a = true) :
    occursB pat (a ++ b) = true := by
  obtain ⟨x, y, hxy⟩ := occursB_iff.mp h
  exact occursB_iff.mpr ⟨x, y ++ b, by simp [hxy]⟩

theorem occursB_dropWhile {pat : PyStr} (f : Char → Bool) {s : PyStr}
    (h : occursB pat (s.dropWhile f) = true) : occursB pat s = true := by
  obtain ⟨x, y, hxy⟩ := occursB_iff.mp h
  refine occursB_iff.mpr ⟨s.takeWhile f ++ x, y, ?_⟩
  conv_lhs => rw [← List.takeWhile_append_dropWhile f s]
  rw [hxy, List.append_assoc]

theorem pyStrip_occurs {pat s : PyStr} (h : occursB pat (pyStrip s) = true) :
    occursB pat s = true := by
  apply occursB_dropWhile isPySpace
  have hdec : s.dropWhile isPySpace =
      ((s.dropWhile isPySpace).reverse.dropWhile isPySpace).reverse ++
        ((s.dropWhile isPySpace).reverse.takeWhile isPySpace).reverse := by
    conv_lhs => rw [← List.reverse_reverse (s.dropWhile isPySpace)]
    conv_lhs => rw [← List.takeWhile_append_dropWhile isPySpace (s.dropWhile isPySpace).reverse]
    rw [List.reverse_append]
  rw [hdec]
  exact occursB_append_left _ h

theorem pyFind_ne_none_iff {s pat : PyStr} : pyFind s pat ≠ none ↔ occursB pat s = true := by
  induction s with
  | nil =>
    by_cases h : leads pat [] = true
    · simp [pyFind, occursB, h]
    · simp [pyFind, occursB, h]
  | cons c rest ih =>
    by_cases h : leads pat (c :: rest) = true
    · simp [pyFind, occursB, h]
    · simp [pyFind, occursB, h, ih, Option.map_eq_none']

theorem expandGo_no_bs (mat : PyStr) :
    ∀ (fuel : Nat) (s : PyStr), '\\' ∉ s → expandGo mat fuel s = Except.ok s := by
  intro fuel
  induction fuel with
  | zero => intro s _; cases s <;> rfl
  | succ n ih =>
    intro s hs
    cases s with
    | nil => rfl
    | cons c rest =>
      have hc : ¬(c = '\\') := fun h => hs (h ▸ List.mem_cons_self c rest)
      have hr : '\\' ∉ rest := fun h => hs (List.mem_cons_of_mem _ h)
      simp only [expandGo, if_neg hc, ih rest hr, Functor.map, Except.map]

theorem expandTemplate_no_bs (mat : PyStr) {s : PyStr} (h : '\\' ∉ s) :
    expandTemplate mat s = Except.ok s :=
  expandGo_no_bs mat s.length s h

theorem finishAuthor_et (w : PyStr) :
    finishAuthor (w ++ ' ' :: etAllMarker) = some (w ++ ' ' :: etAllMarker) := by
  unfold finishAuthor
  rw [List.getLast?_append]
  have h1 : (' ' :: etAllMarker).getLast? = some 'l' := by decide
  rw [h1]
  simp only [Option.or]
  rw [if_neg (by decide)]

/-! ### Claim theorems -/

/-- C1: the claim that canonicalize_author and canonicalize_title never raise
is violated by the code: canonicalize_author applied to the string "." and
canonicalize_title applied to the one-character string consisting of a
double-quote both evaluate value[-1] on an empty string, raising IndexError
(modelled by none).  The input "et all" does not raise: it yields " et all". -/
theorem C1_canonicalizers_can_raise :
    canonicalize_author ".".data = none ∧
    canonicalize_author "et all".data = some " et all".data ∧
    canonicalize_title "\"".data = none :=
  ⟨rfl, rfl, rfl⟩

/-- C2: canonicalize_title removes at most one leading and one trailing
double-quote, but on the one-character input consisting solely of a
double-quote the code raises IndexError (modelled by none) instead of
returning the empty string claimed by the spec: after the leading-quote
removal empties the string, the trailing-quote check indexes value[-1]. -/
theorem C2_title_single_quote_raises :
    canonicalize_title "\"".data = none ∧
    canonicalize_title "\"Hello World\"".data = some "Hello World".data :=
  ⟨rfl, rfl⟩

/-- C3 counterexample: running the full scenario with the empty string for
pubdate leaves a stray double space in the interior of the final entry,
because the code trims whitespace only at the ends of the entry. -/
theorem C3_counterexample :
    get_next_input_or_insert TEMPLATE (some "author".data) (some "Bryan Kyle".data) =
      Except.ok ("Kyle, Bryan. <title> <pubdate> <ref>".data, some "title".data) ∧
    get_next_input_or_insert "Kyle, Bryan. <title> <pubdate> <ref>".data
        (some "title".data) (some "\"Test\"".data) =
      Except.ok ("Kyle, Bryan. \"Test\" <pubdate> <ref>".data, some "pubdate".data) ∧
    get_next_input_or_insert "Kyle, Bryan. \"Test\" <pubdate> <ref>".data
        (some "pubdate".data) (some []) =
      Except.ok ("Kyle, Bryan. \"Test\"  <ref>".data, some "ref".data) ∧
    get_next_input_or_insert "Kyle, Bryan. \"Test\"  <ref>".data
        (some "ref".data) (some "http://example.com".data) =
      Except.ok ("Kyle, Bryan. \"Test\"  <<http://example.com>>".data, none) ∧
    occursB "  ".data "Kyle, Bryan. \"Test\"  <<http://example.com>>".data = true :=
  ⟨rfl, rfl, rfl, rfl, rfl⟩

/-- C3 (amended): supplying the empty string for pubdate removes that segment
(no pubdate token and no pubdate text remain), but whitespace is trimmed only
at the ends of the entry, so one stray double space remains in the interior
where the segment stood. -/
theorem C3_amended_empty_pubdate :
    get_next_input_or_insert "Kyle, Bryan. \"Test\" <pubdate> <ref>".data
        (some "pubdate".data) (some []) =
      Except.ok ("Kyle, Bryan. \"Test\"  <ref>".data, some "ref".data) ∧
    occursB "<pubdate>".data "Kyle, Bryan. \"Test\"  <ref>".data = false ∧
    occursB "  ".data "Kyle, Bryan. \"Test\"  <ref>".data = true :=
  ⟨rfl, rfl, rfl⟩

/-- C4 counterexample: supplying the literal value consisting of the token
of the author placeholder makes the substituted entry contain the token
again, and the engine reports author as the next placeholder once more. -/
theorem C4_counterexample :
    get_next_input_or_insert TEMPLATE (some "author".data) (some "<author>".data) =
      Except.ok ("<author>. <title> <pubdate> <ref>".data, some "author".data) ∧
    occursB "<author>".data "<author>. <title> <pubdate> <ref>".data = true :=
  ⟨rfl, rfl⟩

/-- C5 counterexample: the wrapped value is passed to re.sub as a replacement
template, not inserted character-for-character: supplying the value with the
two characters backslash-n for pubdate inserts a newline character, and the
literal backslash-n sequence does not occur in the resulting entry. -/
theorem C5_counterexample :
    get_next_input_or_insert TEMPLATE (some "pubdate".data) (some "a\\nb".data) =
      Except.ok ("<author> <title> a\nb. <ref>".data, some "author".data) ∧
    occursB "a\\nb".data "<author> <title> a\nb. <ref>".data = false :=
  ⟨rfl, rfl⟩

/-- C6: the full-template scenario: starting from the raw template and
supplying the four reference values in sequence yields the reference final
entry, with placeholders discovered in template order author, title,
pubdate, ref. -/
theorem C6_full_scenario :
    get_next_input_or_insert TEMPLATE none none =
      Except.ok (TEMPLATE, some "author".data) ∧
    get_next_input_or_insert TEMPLATE (some "author".data) (some "Bryan Kyle".data) =
      Except.ok ("Kyle, Bryan. <title> <pubdate> <ref>".data, some "title".data) ∧
    get_next_input_or_insert "Kyle, Bryan. <title> <pubdate> <ref>".data
        (some "title".data) (some "\"Test\"".data) =
      Except.ok ("Kyle, Bryan. \"Test\" <pubdate> <ref>".data, some "pubdate".data) ∧
    get_next_input_or_insert "Kyle, Bryan. \"Test\" <pubdate> <ref>".data
        (some "pubdate".data) (some "01 Jan 2020".data) =
      Except.ok ("Kyle, Bryan. \"Test\" 01 Jan 2020. <ref>".data, some "ref".data) ∧
    get_next_input_or_insert "Kyle, Bryan. \"Test\" 01 Jan 2020. <ref>".data
        (some "ref".data) (some "http://example.com".data) =
      Except.ok ("Kyle, Bryan. \"Test\" 01 Jan 2020. <<http://example.com>>".data, none) :=
  ⟨rfl, rfl, rfl, rfl, rfl⟩

/-- C7: canonicalize_author reproduces the four reference mappings of its
doctest exactly. -/
theorem C7_reference_mappings :
    canonicalize_author "".data = some "".data ∧
    canonicalize_author "Bryan Kyle".data = some "Kyle, Bryan".data ∧
    canonicalize_author "Bryan Kyle et all".data = some "Kyle, Bryan et all".data ∧
    canonicalize_author "Bryan Kyle et all.".data = some "Kyle, Bryan et all".data :=
  ⟨rfl, rfl, rfl, rfl⟩

/-- C8 counterexample: the string holding the marker twice followed by a
comma satisfies the stated canonical-form condition (contains a comma, no
trailing period), yet a second application of canonicalize_author changes
the result again, refuting the claimed idempotence. -/
theorem C8_counterexample :
    pyFind "et allet all, B".data (',' :: []) ≠ none ∧
    "et allet all, B".data.getLast? ≠ some '.' ∧
    (canonicalize_author "et allet all, B".data).bind canonicalize_author ≠
      canonicalize_author "et allet all, B".data :=
  ⟨by decide, by decide, by decide⟩

/-- C9 counterexample: author is a valid placeholder name, yet the
substitution step fails on it for the value ".": the registered
canonicalizer raises IndexError, refuting the claim that the step never
fails for valid names. -/
theorem C9_counterexample :
    (VARS "author".data).isSome = true ∧
    get_next_input_or_insert TEMPLATE (some "author".data) (some ".".data) =
      Except.error PyErr.indexError :=
  ⟨rfl, rfl⟩

/-- C4 (amended): substituting the author placeholder of the raw template
with a replacement that does not itself contain the token leaves an entry
free of the token; the invariant holds only because the template text
around the token cannot recombine into it, and it fails when the
substituted value textually contains a placeholder token. -/
theorem C4_amended (w : PyStr) (h : occursB "<author>".data w = false) :
    occursB "<author>".data
      (pyStrip (replaceAllL "<author>".data w TEMPLATE)) = false := by
  have hrw : replaceAllL "<author>".data w TEMPLATE =
      w ++ " <title> <pubdate> <ref>".data := rfl
  rw [hrw]
  by_contra hc
  simp only [Bool.not_eq_false] at hc
  have hT : occursB "<author>".data " <title> <pubdate> <ref>".data = false := by decide
  have h1 : occursB "<author>".data (w ++ " <title> <pubdate> <ref>".data) = true :=
    pyStrip_occurs hc
  obtain ⟨a, b, hab⟩ := occursB_iff.mp h1
  rcases List.append_eq_append_iff.mp hab with ⟨l, hl1, hl2⟩ | ⟨l, hl1, hl2⟩
  · have : occursB "<author>".data " <title> <pubdate> <ref>".data = true :=
      occursB_iff.mpr ⟨l, b, hl2⟩
    rw [this] at hT
    exact absurd hT (by decide)
  · rcases List.append_eq_append_iff.mp hl2 with ⟨m, hm1, hm2⟩ | ⟨m, hm1, hm2⟩
    · have : occursB "<author>".data w = true := by
        refine occursB_iff.mpr ⟨a, m, ?_⟩
        rw [hl1, hm1]
      rw [this] at h
      exact absurd h (by decide)
    · cases m with
      | nil =>
        have hca : l = "<author>".data := by simpa using hm1.symm
        have : occursB "<author>".data w = true := by
          refine occursB_iff.mpr ⟨a, [], ?_⟩
          rw [List.append_nil, hl1, hca]
        rw [this] at h
        exact absurd h (by decide)
      | cons x t2 =>
        have hTc : " <title> <pubdate> <ref>".data =
            ' ' :: "<title> <pubdate> <ref>".data := rfl
        rw [hTc, List.cons_append] at hm2
        injection hm2 with hx _
        have hmem : x ∈ "<author>".data := by
          rw [hm1]
          simp
        rw [← hx] at hmem
        exact absurd hmem (by decide)

/-- C4 witness: a concrete token-free replacement for author leaves the
entry free of the author token. -/
theorem C4_witness :
    occursB "<author>".data
      (pyStrip (replaceAllL "<author>".data "Kyle, Bryan.".data TEMPLATE)) = false :=
  C4_amended _ (by decide)

/-- C5 (amended): the wrapped value is handed to the regex substitution as a
replacement template; whenever it contains no backslash it is inserted
character-for-character, replacing every occurrence of the placeholder
token, and the entry is then trimmed of leading and trailing whitespace.
Values whose wrapped form contains a backslash are instead interpreted as
replacement escapes. -/
theorem C5_amended (entry text v : PyStr) (spec : Variable) (w : PyStr)
    (hv : VARS v = some spec) (hw : wrappedText spec text = Except.ok w)
    (hnb : '\\' ∉ w) :
    get_next_input_or_insert entry (some v) (some text) =
      Except.ok (pyStrip (replaceAllL ('<' :: (v ++ '>' :: [])) w entry),
        (findVars (pyStrip (replaceAllL ('<' :: (v ++ '>' :: [])) w entry))).head?) := by
  simp only [get_next_input_or_insert, Option.getD_some, hv, hw,
    expandTemplate_no_bs _ hnb]

/-- C5 witness: the pubdate reference value is inserted literally. -/
theorem C5_witness :
    get_next_input_or_insert TEMPLATE (some "pubdate".data) (some "01 Jan 2020".data) =
      Except.ok
        (pyStrip (replaceAllL ('<' :: ("pubdate".data ++ '>' :: []))
          "01 Jan 2020.".data TEMPLATE),
        (findVars (pyStrip (replaceAllL ('<' :: ("pubdate".data ++ '>' :: []))
          "01 Jan 2020.".data TEMPLATE))).head?) :=
  C5_amended _ _ _ pubdateVar _ rfl rfl (by decide)

/-- C8 (amended): a string that contains a comma, has no trailing period and
does not contain the marker "et all" case-insensitively is returned
unchanged by canonicalize_author, so a second application yields the same
string; comma-containing strings embedding the marker can keep changing. -/
theorem C8_amended (x : PyStr) (hc : pyFind x (',' :: []) ≠ none)
    (hp : x.getLast? ≠ some '.') (he : pyFind (pyLower x) etAllMarker = none) :
    canonicalize_author x = some x := by
  have hx : x ≠ [] := by rintro rfl; exact hc rfl
  obtain ⟨i, hi⟩ := Option.ne_none_iff_exists'.mp hc
  unfold canonicalize_author
  rw [if_neg hx]
  have h1 : stripTrailingDot x = x := by unfold stripTrailingDot; rw [if_neg hp]
  rw [h1]
  have h2 : excise x = (x, []) := by unfold excise; rw [he]
  rw [h2]
  have h3 : reorderName x = x := by unfold reorderName; rw [hi]
  have h4 : assembleEtAll (x, []) = x := by
    unfold assembleEtAll
    simp [h3]
  rw [h4]
  unfold finishAuthor
  cases hgl : x.getLast? with
  | none => exact absurd (List.getLast?_eq_none_iff.mp hgl) hx
  | some c =>
    have hcd : ¬(c = '.') := fun hcc => hp (hcc ▸ hgl)
    show some (if c = '.' then x.dropLast else x) = some x
    rw [if_neg hcd]

/-- C8 witness: the reference canonical string is a fixed point. -/
theorem C8_witness :
    canonicalize_author "Kyle, Bryan".data = some "Kyle, Bryan".data :=
  C8_amended _ (by decide) (by decide) (by decide)

/-- C9 (amended): an unknown placeholder name always signals KeyError; for a
registered name the step succeeds whenever the registered filter does not
raise on the value and the wrapped value contains no backslash (values with
backslashes are interpreted as regex replacement escapes and can fail);
the empty value is always legal. -/
theorem C9_amended (name entry : PyStr) (text : Option PyStr) :
    (VARS name = none →
      get_next_input_or_insert entry (some name) text =
        Except.error (PyErr.keyError name)) ∧
    (∀ spec w, VARS name = some spec →
      wrappedText spec (text.getD []) = Except.ok w → '\\' ∉ w →
      ∃ e next, get_next_input_or_insert entry (some name) text =
        Except.ok (e, next)) := by
  constructor
  · intro hn
    simp only [get_next_input_or_insert, hn]
  · intro spec w hv hw hnb
    have heq : get_next_input_or_insert entry (some name) text =
        Except.ok (pyStrip (replaceAllL ('<' :: (name ++ '>' :: [])) w entry),
          (findVars (pyStrip (replaceAllL ('<' :: (name ++ '>' :: []))
            w entry))).head?) := by
      simp only [get_next_input_or_insert, hv, hw, expandTemplate_no_bs _ hnb]
    exact ⟨_, _, heq⟩

/-- C9 witness: an unknown name fails with KeyError and a valid name with a
plain value succeeds. -/
theorem C9_witness :
    get_next_input_or_insert TEMPLATE (some "date".data) none =
      Except.error (PyErr.keyError "date".data) ∧
    (∃ e next, get_next_input_or_insert TEMPLATE (some "pubdate".data)
      (some "x".data) = Except.ok (e, next)) :=
  ⟨(C9_amended "date".data TEMPLATE none).1 rfl,
   (C9_amended "pubdate".data TEMPLATE (some "x".data)).2 pubdateVar "x.".data
     rfl rfl (by decide)⟩

/-- C10: whenever the marker "et all" occurs case-insensitively in the
input, canonicalize_author succeeds and its output ends with the fixed
lowercase text " et all", regardless of the casing of the occurrence. -/
theorem C10_et_all_lowercase (value : PyStr)
    (h : pyFind (pyLower value) etAllMarker ≠ none) :
    ∃ r, canonicalize_author value = some r ∧ ∃ a, r = a ++ ' ' :: etAllMarker := by
  have hocc : occursB etAllMarker (pyLower value) = true := pyFind_ne_none_iff.mp h
  have hval : value ≠ [] := by
    rintro rfl
    revert hocc
    decide
  have hocc1 : occursB etAllMarker (pyLower (stripTrailingDot value)) = true := by
    unfold stripTrailingDot
    by_cases hdot : value.getLast? = some '.'
    · rw [if_pos hdot]
      obtain ⟨a, b, hab⟩ := occursB_iff.mp hocc
      have hlast : (pyLower value).getLast? = some '.' := by
        unfold pyLower
        rw [List.getLast?_map, hdot]
        rfl
      cases hb : b with
      | nil =>
        subst hb
        rw [List.append_nil] at hab
        rw [hab, List.getLast?_append] at hlast
        have hm : etAllMarker.getLast? = some 'l' := by decide
        rw [hm] at hlast
        simp only [Option.or] at hlast
        exact absurd hlast (by decide)
      | cons y b2 =>
        subst hb
        have hlow : pyLower value.dropLast = (pyLower value).dropLast := by
          unfold pyLower
          exact List.map_dropLast Char.toLower value
        have hne1 : etAllMarker ++ y :: b2 ≠ ([] : PyStr) := by simp
        have hne2 : (y :: b2 : PyStr) ≠ [] := by simp
        rw [hlow, hab, List.dropLast_append_of_ne_nil _ hne1,
          List.dropLast_append_of_ne_nil _ hne2]
        exact occursB_iff.mpr ⟨a, (y :: b2).dropLast, rfl⟩
    · rw [if_neg hdot]
      exact hocc
  obtain ⟨i, hi⟩ :=
    Option.ne_none_iff_exists'.mp (pyFind_ne_none_iff.mpr hocc1)
  unfold canonicalize_author
  rw [if_neg hval]
  have h2 : excise (stripTrailingDot value) =
      ((stripTrailingDot value).take i ++ (stripTrailingDot value).drop (i + 6),
        etAllMarker) := by
    unfold excise; rw [hi]
  rw [h2]
  have hmne : (etAllMarker : PyStr) ≠ [] := by decide
  have h3 : ∀ y : PyStr, assembleEtAll (y, etAllMarker) =
      pyStrip (reorderName y) ++ ' ' :: etAllMarker := by
    intro y
    show (if (etAllMarker : PyStr) ≠ [] then
        pyStrip (reorderName y) ++ ' ' :: etAllMarker else reorderName y) =
      pyStrip (reorderName y) ++ ' ' :: etAllMarker
    rw [if_pos hmne]
  rw [h3, finishAuthor_et]
  exact ⟨_, rfl, _, rfl⟩

/-- C10 witness: the marker in the input appears only in non-lowercase
form, and the output still ends with the lowercase marker. -/
theorem C10_witness :
    ∃ r, canonicalize_author "Bryan Kyle Et All".data = some r ∧
      ∃ a, r = a ++ ' ' :: etAllMarker :=
  C10_et_all_lowercase _ (by decide)

end Bibliography
